import Mathlib

/-!
Verification of the conversational recommendation engine of the
"GadgetsandThose" repository against its natural-language specification.

The development shallowly embeds the TypeScript sources:

* JavaScript strings are modelled as `List Char` (`Str`); `toLowerCase` is
  modelled on the ASCII range (the catalog and queries are ASCII), and
  `String.prototype.includes` as infix containment.
* `Array.prototype.sort` with the comparator `(a, b) => score b - score a`
  is a stable sort by descending score (ES2019 guarantees stability); it is
  modelled by `List.insertionSort` with the relation `score b ≤ score a`,
  which is stable and sorts descending, hence produces the same list.
* The JavaScript object `scores` in `findRelevantProducts` is modelled as an
  association list in insertion order (for the string product ids used by
  the catalog, `Object.keys` enumerates keys in insertion order); assignment
  to an existing key overwrites the value in place (`insertScore`).
* Network and device calls (`fetch`, Gemini SDK, `getUserMedia`,
  `ai.live.connect`) are modelled as oracle parameters of type `Except`:
  the embedded function receives the outcome of the external call.
* JavaScript numbers are modelled as `ℝ` where square roots occur
  (embedding vectors, cosine similarity) and as `ℚ` elsewhere (prices,
  audio clock times).
* Message ids and timestamps (`Date.now()`) are clock noise that no claim
  depends on; they are omitted from the `ChatMessage` model.
-/

/-- Str models a JavaScript string as its list of characters. -/
abbrev Str := List Char

/-- charLower models `String.prototype.toLowerCase` on a single ASCII
character: upper-case letters map to lower case, everything else is kept. -/
def charLower : Char → Char
  | 'A' => 'a' | 'B' => 'b' | 'C' => 'c' | 'D' => 'd' | 'E' => 'e'
  | 'F' => 'f' | 'G' => 'g' | 'H' => 'h' | 'I' => 'i' | 'J' => 'j'
  | 'K' => 'k' | 'L' => 'l' | 'M' => 'm' | 'N' => 'n' | 'O' => 'o'
  | 'P' => 'p' | 'Q' => 'q' | 'R' => 'r' | 'S' => 's' | 'T' => 't'
  | 'U' => 'u' | 'V' => 'v' | 'W' => 'w' | 'X' => 'x' | 'Y' => 'y'
  | 'Z' => 'z'
  | c => c

/-- toLowerStr models `s.toLowerCase()` for an ASCII string `s`. -/
def toLowerStr (s : Str) : Str := s.map charLower

/-- strContains models `hay.includes(sub)`: substring containment. -/
def strContains (hay sub : Str) : Bool := decide (sub <:+: hay)

/-- splitWh models `s.split(/\s/)`: the string is cut at every whitespace
character.  The source splits on `/\s+/` (runs of whitespace); the two
agree after the `length > 2` filter, because cutting at single characters
only adds empty chunks. -/
def splitWh : Str → List Str
  | [] => [[]]
  | c :: cs =>
    match splitWh cs, c.isWhitespace with
    | r, true => [] :: r
    | [], false => [[c]]
    | w :: ws, false => (c :: w) :: ws

/-- trimStr models `s.trim()`: whitespace is removed from both ends. -/
def trimStr (s : Str) : Str :=
  ((s.dropWhile Char.isWhitespace).reverse.dropWhile Char.isWhitespace).reverse

/-- Product mirrors the `Product` interface of `src/types.ts`. -/
structure Product where
  id : Str
  name : Str
  category : Str
  description : Str
  price : ℚ
  imageUrl : Str
  affiliateUrl : Str
  features : List Str
deriving DecidableEq

instance : Inhabited Product := ⟨⟨[], [], [], [], 0, [], [], []⟩⟩

/-- queryWords models
`query.toLowerCase().split(/\s+/).filter(w => w.length > 2)`
from `findRelevantProducts`. -/
def queryWords (query : Str) : List Str :=
  (splitWh (toLowerStr query)).filter (fun w => 2 < w.length)

/-- wordScore models the weighted keyword check of `findRelevantProducts`
for one query word: name match 5, category 3, features 2, description 1. -/
def wordScore (p : Product) (w : Str) : Nat :=
  (if strContains (toLowerStr p.name) w then 5 else 0) +
  (if strContains (toLowerStr p.category) w then 3 else 0) +
  (if strContains (toLowerStr (List.intercalate [' '] p.features)) w then 2 else 0) +
  (if strContains (toLowerStr p.description) w then 1 else 0)

/-- productScore models the accumulated `score` of one product over all
query words (`queryWords.forEach(word => ...)`). -/
def productScore (qw : List Str) (p : Product) : Nat :=
  (qw.map (wordScore p)).sum

/-- insertScore models `scores[id] = score` on the JavaScript object
`scores`, viewed as an association list in key-insertion order: an existing
key keeps its position and gets the new value, a new key is appended. -/
def insertScore (l : List (Str × Nat)) (i : Str) (s : Nat) : List (Str × Nat) :=
  if l.any (fun x => x.1 == i) then
    l.map (fun x => if x.1 == i then (x.1, s) else x)
  else l ++ [(i, s)]

/-- scoreStep models one iteration of `allProducts.forEach(product => ...)`
in `findRelevantProducts`: the product id is recorded iff its score is
positive (`if (score > 0) scores[product.id] = score`). -/
def scoreStep (qw : List Str) (acc : List (Str × Nat)) (p : Product) : List (Str × Nat) :=
  let s := productScore qw p
  if 0 < s then insertScore acc p.id s else acc

/-- scoresDict models the fully built `scores` object of
`findRelevantProducts`. -/
def scoresDict (qw : List Str) (ps : List Product) : List (Str × Nat) :=
  ps.foldl (scoreStep qw) []

/-- findRelevantProducts models the lexical ranker of the same name in the
`ChatInterface` component embedded in `src/types.ts`.  The id array sorted
by `(a, b) => scores[b] - scores[a]` is modelled by stably sorting the
dictionary entries by descending score (each id has exactly one entry, so
comparing looked-up scores is comparing entry values) and projecting the
keys; `slice(0, 3)` is `take 3`; `map(find).filter(p => !!p)` is
`filterMap find?`. -/
def findRelevantProducts (query : Str) (allProducts : List Product) : List Product :=
  let qw := queryWords query
  if qw = [] then []
  else
    let scores := scoresDict qw allProducts
    let sortedProductIds :=
      (List.insertionSort (fun x y => y.2 ≤ x.2) scores).map Prod.fst
    (sortedProductIds.take 3).filterMap
      (fun i => allProducts.find? (fun p => p.id == i))

/-- dotProd models the `dotProduct` reduce of `cosineSimilarity` in
`src/netlify/functions/gemini.ts` (vectors of equal dimension). -/
noncomputable def dotProd (vecA vecB : List ℝ) : ℝ :=
  (List.zipWith (fun a b => a * b) vecA vecB).sum

/-- magnitude models `Math.sqrt(vec.reduce((acc, val) => acc + val * val, 0))`
from `cosineSimilarity`. -/
noncomputable def magnitude (vec : List ℝ) : ℝ :=
  Real.sqrt ((vec.map (fun v => v * v)).sum)

/-- cosineSimilarity models the function of the same name in
`src/netlify/functions/gemini.ts`: score 0 if either magnitude is zero,
otherwise dot product over the product of magnitudes. -/
noncomputable def cosineSimilarity (vecA vecB : List ℝ) : ℝ :=
  if magnitude vecA = 0 ∨ magnitude vecB = 0 then 0
  else dotProd vecA vecB / (magnitude vecA * magnitude vecB)

/-- rankProducts models steps 4 of the `gemini.ts` handler: attach
similarities to the products in catalog order, sort stably by descending
similarity (`(a, b) => b.similarity - a.similarity`), take the top 3. -/
noncomputable def rankProducts (products : List Product) (similarities : List ℝ) :
    List (Product × ℝ) :=
  (List.insertionSort (fun x y => y.2 ≤ x.2) (products.zip similarities)).take 3

/-- NfBody models the body of a Netlify function response; the error payload
text is elided (no claim depends on it). -/
inductive NfBody where
  | errorBody : NfBody
  | chatBody : Str → NfBody
deriving DecidableEq

/-- NfResponse models `{ statusCode, body }` returned by the handler. -/
structure NfResponse where
  statusCode : Nat
  body : NfBody
deriving DecidableEq

/-- postMethod is the `"POST"` method string. -/
def postMethod : Str := "POST".toList

/-- handlerGemini models the control flow of the handler in
`src/netlify/functions/gemini.ts`.  External calls are oracles:
`productsFile` is the `products.json` read, `embedOutcome` the
`getEmbeddings` call (which throws into the surrounding catch on API
failure), `chatOutcome` the chat-model call, receiving the ranked products
that the augmented prompt is composed from.  The second component of the
result records whether the chat endpoint was invoked at all. -/
noncomputable def handlerGemini (httpMethod : Str) (apiKey : Option Str)
    (prompt : Option Str) (productsFile : Except Unit (List Product))
    (embedOutcome : Except Unit (List (List ℝ)))
    (chatOutcome : List (Product × ℝ) → Except Unit Str) : NfResponse × Bool :=
  if httpMethod = postMethod then
    match apiKey with
    | none => (⟨500, .errorBody⟩, false)
    | some _ =>
      match prompt with
      | none => (⟨400, .errorBody⟩, false)
      | some p =>
        if p = [] then (⟨400, .errorBody⟩, false)
        else
          match productsFile with
          | .error _ => (⟨500, .errorBody⟩, false)
          | .ok products =>
            match embedOutcome with
            | .error _ => (⟨500, .errorBody⟩, false)
            | .ok embeddings =>
              let queryEmbedding := embeddings.headD []
              let productEmbeddings := embeddings.tail
              let similarities := productEmbeddings.map (cosineSimilarity queryEmbedding)
              let relevantProducts := rankProducts products similarities
              match chatOutcome relevantProducts with
              | .error _ => (⟨500, .errorBody⟩, true)
              | .ok result => (⟨200, .chatBody result⟩, true)
  else (⟨405, .errorBody⟩, false)

/-- Role of a chat message. -/
inductive Role where
  | user : Role
  | assistant : Role
deriving DecidableEq

/-- ChatMessage models the message records kept in the `messages` state of
the chat components (`Message & { recommendation?, reason? }`); ids and
timestamps are omitted (see the module comment). -/
structure ChatMessage where
  role : Role
  content : Str
  recommendation : Option Product
  reason : Option Str
deriving DecidableEq

/-- ChatState models the session-relevant component state of the chat
widgets: the append-only message list, the input box and the busy flag. -/
structure ChatState where
  messages : List ChatMessage
  inputText : Str
  isTyping : Bool
deriving DecidableEq

/-- FunctionCall models a `recommend_product` tool invocation payload. -/
structure FunctionCall where
  name : Str
  productId : Str
  reasoning : Str
deriving DecidableEq

/-- AiResponse models the fields of a Gemini SDK chat response that
`processAiResponse` reads (`response.text`, `response.functionCalls`);
an absent text is the empty string. -/
structure AiResponse where
  text : Str
  functionCalls : List FunctionCall
deriving DecidableEq

/-- recommendProductName is the declared tool name `"recommend_product"`. -/
def recommendProductName : Str := "recommend_product".toList

/-- fallbackText is the fixed fallback assistant reply of both
`handleTextSubmit` catch blocks. -/
def fallbackText : Str := "I hit a snag in the comms. What was that again?".toList

/-- greetingFallbackText is the fixed greeting used when the initial model
call of `initChat` fails. -/
def greetingFallbackText : Str := "Hey! Gadget Scout here. What are we optimizing today?".toList

/-- fallbackMessage is the assistant message appended by the catch block of
`handleTextSubmit`. -/
def fallbackMessage : ChatMessage := ⟨.assistant, fallbackText, none, none⟩

/-- mkUserMessage models `addMessage('user', userMsg)`. -/
def mkUserMessage (m : Str) : ChatMessage := ⟨.user, m, none, none⟩

/-- processAiResponse models the function of the same name in the
`ChatInterface` embedded in `src/types.ts`: the first function call, when
named `recommend_product`, resolves its `productId` against the catalog;
the message is appended only if it has text or a resolved recommendation
(`if (text || recommendation)`), and is returned here as an `Option`. -/
def processAiResponse (products : List Product) (resp : AiResponse) : Option ChatMessage :=
  let recReason : Option Product × Option Str :=
    match resp.functionCalls with
    | call :: _ =>
      if call.name = recommendProductName then
        (products.find? (fun p => p.id == call.productId), some call.reasoning)
      else (none, none)
    | [] => (none, none)
  let recommendation := recReason.1
  let reason := recReason.2
  let text := resp.text
  if text ≠ [] ∨ recommendation.isSome then
    some ⟨.assistant, text, recommendation, reason⟩
  else none

/-- productContextLine models one line of the retrieved-product context in
`handleTextSubmit`. -/
def productContextLine (p : Product) : Str :=
  ("- ID: ".toList) ++ p.id ++ (", Name: ".toList) ++ p.name ++
  (", Desc: ".toList) ++ p.description

/-- augmentedUserMessage models the prompt-augmentation step of
`handleTextSubmit` in the `ChatInterface` embedded in `src/types.ts`: with
no relevant products the raw user message is sent, otherwise the context
listing is prepended. -/
def augmentedUserMessage (products : List Product) (userMsg : Str) : Str :=
  let relevantProducts := findRelevantProducts userMsg products
  if relevantProducts = [] then userMsg
  else
    ("Based on my query, I found these potentially relevant products in your catalog:\n".toList)
    ++ List.intercalate ("\n".toList) (relevantProducts.map productContextLine)
    ++ ("\n\nPlease consider this context when answering my query: \"".toList)
    ++ userMsg ++ ("\"".toList)

/-- submitBegin models the synchronous head of both `handleTextSubmit`
variants: the guard `if (!inputText.trim() || isTyping) return`, clearing
the input box, appending the user message, raising the busy flag.  `none`
means the submission was rejected. -/
def submitBegin (st : ChatState) : Option (ChatState × Str) :=
  if trimStr st.inputText = [] ∨ st.isTyping = true then none
  else
    some ({ st with
              inputText := [],
              messages := st.messages ++ [mkUserMessage (trimStr st.inputText)],
              isTyping := true },
          trimStr st.inputText)

/-- finishTypesTurn models the try/catch/finally tail of `handleTextSubmit`
in the `ChatInterface` embedded in `src/types.ts`: the model oracle is
applied to the augmented prompt; on success the processed response (if any)
is appended, on failure the fixed fallback message; the busy flag always
clears. -/
def finishTypesTurn (products : List Product) (st : ChatState) (userMsg : Str)
    (model : Str → Except Unit AiResponse) : ChatState :=
  match model (augmentedUserMessage products userMsg) with
  | .ok resp =>
    { st with messages := st.messages ++ (processAiResponse products resp).toList,
              isTyping := false }
  | .error _ =>
    { st with messages := st.messages ++ [fallbackMessage], isTyping := false }

/-- handleTextSubmit models one full text turn of the `ChatInterface`
embedded in `src/types.ts`. -/
def handleTextSubmit (products : List Product) (st : ChatState)
    (model : Str → Except Unit AiResponse) : ChatState :=
  match submitBegin st with
  | none => st
  | some (st1, m) => finishTypesTurn products st1 m model

/-- FetchResp models the fields of the `/.netlify/functions/gemini` fetch
result that `src/components/ChatInterface.tsx` reads: `response.ok` and the
extracted candidate text (empty when no candidates are present). -/
structure FetchResp where
  ok : Bool
  text : Str
deriving DecidableEq

/-- finishServerTurn models the try/catch/finally tail of `handleTextSubmit`
in `src/components/ChatInterface.tsx`: a failed fetch or a non-ok response
throws into the catch and appends the fallback; an ok response appends the
extracted text unconditionally (there is no empty-text guard and never a
recommendation on this path). -/
def finishServerTurn (st : ChatState) (outcome : Except Unit FetchResp) : ChatState :=
  match outcome with
  | .error _ =>
    { st with messages := st.messages ++ [fallbackMessage], isTyping := false }
  | .ok r =>
    if r.ok = false then
      { st with messages := st.messages ++ [fallbackMessage], isTyping := false }
    else
      { st with messages := st.messages ++ [⟨.assistant, r.text, none, none⟩],
                isTyping := false }

/-- handleTextSubmitServer models one full text turn of
`src/components/ChatInterface.tsx`. -/
def handleTextSubmitServer (st : ChatState) (outcome : Except Unit FetchResp) : ChatState :=
  match submitBegin st with
  | none => st
  | some (st1, _m) => finishServerTurn st1 outcome

/-- initChatTypes models the guarded greeting turn of `initChat` in the
`ChatInterface` embedded in `src/types.ts`: it runs only on an empty
session with a loaded catalog; a failed model call appends the fixed
greeting instead. -/
def initChatTypes (products : List Product) (st : ChatState)
    (model : Except Unit AiResponse) : ChatState :=
  if st.messages = [] ∧ products ≠ [] then
    match model with
    | .ok resp =>
      { st with messages := st.messages ++ (processAiResponse products resp).toList,
                isTyping := false }
    | .error _ =>
      { st with messages := st.messages ++ [⟨.assistant, greetingFallbackText, none, none⟩],
                isTyping := false }
  else st

/-- handleVoiceToolCall models the tool-call branch of the voice `onmessage`
handler in the `ChatInterface` embedded in `src/types.ts`: a
`recommend_product` call whose id resolves appends a message, an
unresolvable id appends nothing; the tool response is acknowledged either
way (second component). -/
def handleVoiceToolCall (products : List Product) (msgs : List ChatMessage)
    (fc : FunctionCall) : List ChatMessage × Bool :=
  if fc.name = recommendProductName then
    match products.find? (fun p => p.id == fc.productId) with
    | some prod => (msgs ++ [⟨.assistant, fc.reasoning, some prod, some fc.reasoning⟩], true)
    | none => (msgs, true)
  else (msgs, false)

/-- VoiceStreamState models the playback bookkeeping of the voice session:
the `nextStartTimeRef` cursor and the scheduled start times of the live
audio sources. -/
structure VoiceStreamState where
  nextStartTime : ℚ
  sources : List ℚ
deriving DecidableEq

/-- scheduleSegment models the downlink audio branch of the voice
`onmessage` handler: the cursor is clamped to the output clock, the source
is started at the cursor, and the cursor advances by the segment
duration.  The second component is the scheduled start time. -/
def scheduleSegment (st : VoiceStreamState) (currentTime duration : ℚ) :
    VoiceStreamState × ℚ :=
  let start := max st.nextStartTime currentTime
  (⟨start + duration, st.sources ++ [start]⟩, start)

/-- interruptPlayback models the `serverContent.interrupted` branch: all
scheduled sources are stopped and cleared and the cursor resets to zero. -/
def interruptPlayback (_st : VoiceStreamState) : VoiceStreamState := ⟨0, []⟩

/-- ChatMode mirrors the `ChatMode` type of `src/types.ts`. -/
inductive ChatMode where
  | text : ChatMode
  | voice : ChatMode
deriving DecidableEq

/-- VoiceAppState models the component state that `startVoiceSession`
touches: the mode, whether the microphone stream and the two audio contexts
are held open, whether a live session is connected, and the user-visible
notices (`alert`) shown so far.  Console logging is not user-visible and is
not recorded. -/
structure VoiceAppState where
  mode : ChatMode
  micOpen : Bool
  inputCtxOpen : Bool
  outputCtxOpen : Bool
  sessionOpen : Bool
  isVoiceActive : Bool
  alerts : List Str
deriving DecidableEq

/-- startVoiceSessionTypes models `startVoiceSession` of the
`ChatInterface` embedded in `src/types.ts`.  `getUserMedia` failing throws
before any resource is created; after it succeeds both audio contexts are
created, and a failure of `ai.live.connect` lands in the catch block, which
only logs to the console and sets the mode back to text — it closes
nothing. -/
def startVoiceSessionTypes (st : VoiceAppState) (micOutcome : Except Unit Unit)
    (connectOutcome : Except Unit Unit) : VoiceAppState :=
  match micOutcome with
  | .error _ => { st with mode := .text }
  | .ok _ =>
    let st1 := { st with micOpen := true, inputCtxOpen := true, outputCtxOpen := true }
    match connectOutcome with
    | .error _ => { st1 with mode := .text }
    | .ok _ => { st1 with sessionOpen := true, isVoiceActive := true }

/-- toggleToVoiceTypes models `toggleMode` leaving text mode in the
`ChatInterface` embedded in `src/types.ts`: the mode is set to voice first,
then `startVoiceSession` runs. -/
def toggleToVoiceTypes (st : VoiceAppState) (micOutcome connectOutcome : Except Unit Unit) :
    VoiceAppState :=
  startVoiceSessionTypes { st with mode := .voice } micOutcome connectOutcome

/-- voiceNoticeText is the alert text of the disabled voice path in
`src/components/ChatInterface.tsx`. -/
def voiceNoticeText : Str :=
  "Voice Discovery is currently undergoing a security update. Please use Text Discovery for now!".toList

/-- startVoiceSessionServer models `startVoiceSession` of
`src/components/ChatInterface.tsx`: voice is disabled, an alert is shown
and the mode stays text; no device is ever acquired. -/
def startVoiceSessionServer (st : VoiceAppState) : VoiceAppState :=
  { st with mode := .text, alerts := st.alerts ++ [voiceNoticeText] }

/-! ### Helper lemmas about stable sorting -/

theorem filter_insertionSort {α : Type} (r : α → α → Prop) [DecidableRel r]
    (P : α → Bool) (l : List α) (hr : (l.filter P).Pairwise r) :
    (List.insertionSort r l).filter P = l.filter P := by
  have h1 : List.Sublist (l.filter P) (List.insertionSort r l) :=
    List.sublist_insertionSort hr (List.filter_sublist l)
  have hself : (l.filter P).filter P = l.filter P :=
    List.filter_eq_self.mpr (fun x hx => (List.mem_filter.mp hx).2)
  have h3 : List.Sublist (l.filter P) ((List.insertionSort r l).filter P) := by
    have h := h1.filter P
    rwa [hself] at h
  have h2 : ((List.insertionSort r l).filter P).length = (l.filter P).length :=
    ((List.perm_insertionSort r l).filter P).length_eq
  exact (h3.eq_of_length h2.symm).symm

theorem pairwise_filter_key {α β : Type} [LinearOrder β] [DecidableEq β]
    (k : α → β) (s : β) (l : List α) :
    (l.filter (fun x => decide (k x = s))).Pairwise (fun x y => k y ≤ k x) := by
  refine List.pairwise_of_forall_mem_list ?_
  intro a ha b hb
  have ha' := (List.mem_filter.mp ha).2
  have hb' := (List.mem_filter.mp hb).2
  simp only [decide_eq_true_eq] at ha' hb'
  rw [ha', hb']

theorem filter_key_insertionSort {α β : Type} [LinearOrder β] [DecidableEq β]
    (k : α → β) (s : β) (l : List α) :
    (List.insertionSort (fun x y => k y ≤ k x) l).filter (fun x => decide (k x = s)) =
      l.filter (fun x => decide (k x = s)) :=
  filter_insertionSort _ _ _ (pairwise_filter_key k s l)

theorem sorted_desc_insertionSort {α β : Type} [LinearOrder β] (k : α → β) (l : List α) :
    (List.insertionSort (fun x y => k y ≤ k x) l).Pairwise (fun x y => k y ≤ k x) := by
  haveI : IsTotal α (fun x y => k y ≤ k x) := ⟨fun a b => (le_total (k b) (k a)).imp id id⟩
  haveI : IsTrans α (fun x y => k y ≤ k x) := ⟨fun _ _ _ h1 h2 => le_trans h2 h1⟩
  exact List.sorted_insertionSort _ l

theorem filterMap_eq_map_of_forall {α γ : Type} (f : α → Option γ) (g : α → γ)
    (l : List α) (h : ∀ a ∈ l, f a = some (g a)) : l.filterMap f = l.map g := by
  induction l with
  | nil => rfl
  | cons a t ih =>
    rw [List.filterMap_cons, List.map_cons, h a (List.mem_cons_self a t),
      ih (fun b hb => h b (List.mem_cons_of_mem a hb))]

/-! ### Helper lemmas about the score dictionary -/

theorem insertScore_not_mem {l : List (Str × Nat)} {i : Str} {s : Nat}
    (h : ∀ e ∈ l, e.1 ≠ i) : insertScore l i s = l ++ [(i, s)] := by
  have hc : ¬(l.any (fun x => x.1 == i) = true) := by
    simp only [List.any_eq_true, beq_iff_eq, not_exists, not_and]
    exact h
  simp [insertScore, hc]

theorem scoresDict_go (qw : List Str) :
    ∀ (ps : List Product) (acc : List (Str × Nat)),
      (ps.map Product.id).Nodup →
      (∀ e ∈ acc, ∀ p ∈ ps, e.1 ≠ p.id) →
      ps.foldl (scoreStep qw) acc =
        acc ++ (ps.filter (fun p => decide (0 < productScore qw p))).map
          (fun p => (p.id, productScore qw p))
  | [], acc, _, _ => by simp
  | p :: rest, acc, hnd, hacc => by
    rw [List.map_cons, List.nodup_cons] at hnd
    rw [List.foldl_cons]
    by_cases hs : 0 < productScore qw p
    · have hstep : scoreStep qw acc p = acc ++ [(p.id, productScore qw p)] := by
        unfold scoreStep
        rw [if_pos hs]
        exact insertScore_not_mem (fun e he => hacc e he p (List.mem_cons_self p rest))
      have hacc' : ∀ e ∈ acc ++ [(p.id, productScore qw p)], ∀ q ∈ rest, e.1 ≠ q.id := by
        intro e he q hq
        rcases List.mem_append.mp he with he' | he'
        · exact hacc e he' q (List.mem_cons_of_mem p hq)
        · have he'' : e = (p.id, productScore qw p) := by simpa using he'
          subst he''
          intro hcontra
          apply hnd.1
          rw [show p.id = q.id from hcontra]
          exact List.mem_map_of_mem Product.id hq
      rw [hstep, scoresDict_go qw rest _ hnd.2 hacc']
      simp [List.filter_cons, hs]
    · have hstep : scoreStep qw acc p = acc := by
        unfold scoreStep
        rw [if_neg hs]
      have hacc' : ∀ e ∈ acc, ∀ q ∈ rest, e.1 ≠ q.id :=
        fun e he q hq => hacc e he q (List.mem_cons_of_mem p hq)
      rw [hstep, scoresDict_go qw rest _ hnd.2 hacc']
      simp [List.filter_cons, hs]

theorem scoresDict_eq {qw : List Str} {ps : List Product}
    (hnd : (ps.map Product.id).Nodup) :
    scoresDict qw ps =
      (ps.filter (fun p => decide (0 < productScore qw p))).map
        (fun p => (p.id, productScore qw p)) := by
  have h := scoresDict_go qw ps [] hnd (by simp)
  simpa [scoresDict] using h

theorem find?_of_nodup_ids {ps : List Product} {p : Product}
    (hnd : (ps.map Product.id).Nodup) (hp : p ∈ ps) :
    ps.find? (fun q => q.id == p.id) = some p := by
  induction ps with
  | nil => cases hp
  | cons a t ih =>
    rw [List.map_cons, List.nodup_cons] at hnd
    rcases List.mem_cons.mp hp with rfl | hmem
    · exact List.find?_cons_of_pos _ (by simp)
    · rw [List.find?_cons_of_neg, ih hnd.2 hmem]
      simp only [beq_iff_eq]
      intro hcontra
      apply hnd.1
      rw [hcontra]
      exact List.mem_map_of_mem Product.id hmem

/-! ### Helper lemmas about query-word splitting -/

theorem isWhitespace_charLower (c : Char) :
    (charLower c).isWhitespace = c.isWhitespace := by
  unfold charLower
  split <;> simp_all

theorem splitWh_ne_nil (s : Str) : splitWh s ≠ [] := by
  cases s with
  | nil => simp [splitWh]
  | cons c cs =>
    unfold splitWh
    rcases h : splitWh cs with _ | ⟨w, ws⟩ <;> cases hw : c.isWhitespace <;> simp

theorem splitWh_map_charLower (s : Str) :
    splitWh (toLowerStr s) = (splitWh s).map toLowerStr := by
  induction s with
  | nil => rfl
  | cons c cs ih =>
    have hws := isWhitespace_charLower c
    rcases hcs : splitWh cs with _ | ⟨w, ws⟩
    · exact absurd hcs (splitWh_ne_nil cs)
    · have hmap : splitWh (toLowerStr cs) = toLowerStr w :: ws.map toLowerStr := by
        rw [show toLowerStr cs = cs.map charLower from rfl] at ih ⊢
        rw [ih, hcs, List.map_cons]
      show splitWh (charLower c :: toLowerStr cs) = _
      cases hw : c.isWhitespace with
      | true =>
        unfold splitWh
        rw [hmap, hws, hw, hcs]
        simp [toLowerStr]
      | false =>
        unfold splitWh
        rw [hmap, hws, hw, hcs]
        simp [toLowerStr]

theorem queryWords_nil_of_short {q : Str} (h : ∀ w ∈ splitWh q, w.length ≤ 2) :
    queryWords q = [] := by
  unfold queryWords
  rw [splitWh_map_charLower]
  rw [List.filter_eq_nil_iff]
  intro a ha
  obtain ⟨w, hw, rfl⟩ := List.mem_map.mp ha
  have := h w hw
  simp only [toLowerStr, List.length_map, decide_eq_true_eq]
  omega

/-- Claim C10: for every catalog, `findRelevantProducts` returns the empty
list whenever every whitespace-separated word of the query has at most 2
characters (in particular for the empty query), so such queries never
contribute retrieval context to the augmented prompt (the augmented message
is the raw user message). -/
theorem c10_short_query_no_context (q : Str) (ps : List Product)
    (h : ∀ w ∈ splitWh q, w.length ≤ 2) :
    findRelevantProducts q ps = [] ∧ augmentedUserMessage ps q = q := by
  have hq : queryWords q = [] := queryWords_nil_of_short h
  have h1 : findRelevantProducts q ps = [] := by
    unfold findRelevantProducts
    simp [hq]
  exact ⟨h1, by unfold augmentedUserMessage; simp [h1]⟩

/-- Witness for C10 at the concrete query `"hi a"` (all words short) and at
the empty query. -/
theorem c10_short_query_no_context_witness :
    findRelevantProducts ("hi a".toList) [] = [] ∧
      findRelevantProducts ([] : Str) [] = [] :=
  ⟨(c10_short_query_no_context ("hi a".toList) [] (by decide)).1,
   (c10_short_query_no_context ([] : Str) [] (by decide)).1⟩

/-! ### Top-3 selection: sortedness, length bound and stability -/

theorem take3_sorted_stable {α β : Type} [LinearOrder β] [DecidableEq β]
    (k : α → β) (l : List α) :
    ((List.insertionSort (fun x y => k y ≤ k x) l).take 3).length ≤ 3 ∧
      ((List.insertionSort (fun x y => k y ≤ k x) l).take 3).Pairwise
        (fun x y => k y ≤ k x) ∧
      (∀ s : β, ∃ t,
        ((List.insertionSort (fun x y => k y ≤ k x) l).take 3).filter
            (fun x => decide (k x = s)) ++ t =
          l.filter (fun x => decide (k x = s))) := by
  refine ⟨?_, ?_, ?_⟩
  · rw [List.length_take]
    exact min_le_left _ _
  · exact List.Pairwise.sublist (List.take_sublist _ _) (sorted_desc_insertionSort k l)
  · intro s
    refine ⟨((List.insertionSort (fun x y => k y ≤ k x) l).drop 3).filter
      (fun x => decide (k x = s)), ?_⟩
    rw [← List.filter_append, List.take_append_drop, filter_key_insertionSort]

theorem findRelevantProducts_pairs {q : Str} {ps : List Product}
    (h0 : queryWords q ≠ []) :
    findRelevantProducts q ps =
      ((List.insertionSort (fun x y => y.2 ≤ x.2)
          (scoresDict (queryWords q) ps)).take 3).filterMap
        (fun e => ps.find? (fun p => p.id == e.1)) := by
  unfold findRelevantProducts
  rw [if_neg h0]
  dsimp only
  rw [← List.map_take, List.filterMap_map]
  rfl

/-- Claim C1: for every catalog and every query, the ranker — the lexical
`findRelevantProducts` path and the embedding-based cosine path alike —
returns a list of at most 3 results, sorted by non-increasing score, with
ties broken by catalog insertion order (stable sort).  The lexical part
assumes the data-model invariant that product identifiers are unique; tie
stability is expressed as: for every score value, the results carrying that
score are a prefix of the catalog products carrying that score (and, on the
lexical path, every returned product has positive score). -/
theorem c1_ranker_top3_sorted_stable (q : Str) (ps : List Product)
    (hnd : (ps.map Product.id).Nodup)
    (qe : List ℝ) (ps2 : List Product) (pes : List (List ℝ))
    (hlen : ps2.length = pes.length) :
    ((findRelevantProducts q ps).length ≤ 3 ∧
      (findRelevantProducts q ps).Pairwise
        (fun p₁ p₂ => productScore (queryWords q) p₂ ≤ productScore (queryWords q) p₁) ∧
      (∀ p ∈ findRelevantProducts q ps, 0 < productScore (queryWords q) p) ∧
      (∀ s : Nat, 0 < s → ∃ t,
        (findRelevantProducts q ps).filter
            (fun p => decide (productScore (queryWords q) p = s)) ++ t =
          ps.filter (fun p => decide (productScore (queryWords q) p = s)))) ∧
    ((rankProducts ps2 (pes.map (cosineSimilarity qe))).length ≤ 3 ∧
      (rankProducts ps2 (pes.map (cosineSimilarity qe))).Pairwise
        (fun x y => y.2 ≤ x.2) ∧
      (∀ s : ℝ, ∃ t,
        (rankProducts ps2 (pes.map (cosineSimilarity qe))).filter
            (fun x => decide (x.2 = s)) ++ t =
          (ps2.zip (pes.map (cosineSimilarity qe))).filter
            (fun x => decide (x.2 = s)))) := by
  constructor
  · -- lexical path
    by_cases h0 : queryWords q = []
    · have hout : findRelevantProducts q ps = [] := by
        unfold findRelevantProducts
        simp [h0]
      refine ⟨by simp [hout], by simp [hout], by simp [hout], fun s _ => ?_⟩
      exact ⟨ps.filter (fun p => decide (productScore (queryWords q) p = s)),
        by simp [hout]⟩
    · have hDeq := @scoresDict_eq (queryWords q) ps hnd
      have hspec := take3_sorted_stable (Prod.snd : Str × Nat → Nat)
        (scoresDict (queryWords q) ps)
      set T := (List.insertionSort (fun x y => y.2 ≤ x.2)
        (scoresDict (queryWords q) ps)).take 3 with hT
      have hout : findRelevantProducts q ps =
          T.filterMap (fun e => ps.find? (fun p => p.id == e.1)) :=
        findRelevantProducts_pairs h0
      set rcv : Str × Nat → Product :=
        fun e => (ps.find? (fun p => p.id == e.1)).getD default with hrcv
      have hmemD : ∀ e ∈ T, ∃ p, p ∈ ps ∧ e = (p.id, productScore (queryWords q) p) ∧
          0 < productScore (queryWords q) p := by
        intro e he
        have h1 : e ∈ List.insertionSort (fun x y => y.2 ≤ x.2)
            (scoresDict (queryWords q) ps) := (List.take_sublist 3 _).subset (hT ▸ he)
        rw [List.mem_insertionSort, hDeq] at h1
        obtain ⟨p, hpf, hpe⟩ := List.mem_map.mp h1
        have hp := List.mem_filter.mp hpf
        exact ⟨p, hp.1, hpe.symm, by simpa using hp.2⟩
      have hfind : ∀ e ∈ T, ps.find? (fun p => p.id == e.1) = some (rcv e) ∧
          rcv e ∈ ps ∧ productScore (queryWords q) (rcv e) = e.2 ∧ 0 < e.2 := by
        intro e he
        obtain ⟨p, hp, rfl, hpos⟩ := hmemD e he
        have hf : ps.find? (fun x => x.id == p.id) = some p := find?_of_nodup_ids hnd hp
        have hr : rcv (p.id, productScore (queryWords q) p) = p := by
          rw [hrcv]
          simp only
          rw [hf]
          rfl
        refine ⟨?_, ?_, ?_, hpos⟩
        · rw [hr]; exact hf
        · rw [hr]; exact hp
        · rw [hr]
      have hmapT : T.filterMap (fun e => ps.find? (fun p => p.id == e.1)) = T.map rcv :=
        filterMap_eq_map_of_forall _ _ _ (fun e he => (hfind e he).1)
      have houtT : findRelevantProducts q ps = T.map rcv := by rw [hout, hmapT]
      refine ⟨?_, ?_, ?_, ?_⟩
      · rw [houtT, List.length_map]
        exact hspec.1
      · rw [houtT, List.pairwise_map]
        refine List.Pairwise.imp_of_mem ?_ hspec.2.1
        intro a b ha hb hab
        rw [(hfind a ha).2.2.1, (hfind b hb).2.2.1]
        exact hab
      · intro p hp
        rw [houtT] at hp
        obtain ⟨e, he, rfl⟩ := List.mem_map.mp hp
        rw [(hfind e he).2.2.1]
        exact (hfind e he).2.2.2
      · intro s hs
        obtain ⟨t, ht⟩ := hspec.2.2 s
        have hfa : (T.map rcv).filter
            (fun p => decide (productScore (queryWords q) p = s)) =
            (T.filter (fun e => decide (e.2 = s))).map rcv := by
          rw [List.filter_map]
          congr 1
          apply List.filter_congr
          intro e he
          show decide (productScore (queryWords q) (rcv e) = s) = decide (e.2 = s)
          rw [(hfind e he).2.2.1]
        have hback : (((scoresDict (queryWords q) ps).filter
            (fun e => decide (e.2 = s))).map rcv) =
            ps.filter (fun p => decide (productScore (queryWords q) p = s)) := by
          rw [hDeq, List.filter_map, List.map_map]
          have hfil : ((ps.filter (fun p => decide (0 < productScore (queryWords q) p))).filter
              ((fun e : Str × Nat => decide (e.2 = s)) ∘
                (fun p => (p.id, productScore (queryWords q) p)))) =
              ps.filter (fun p => decide (productScore (queryWords q) p = s)) := by
            rw [List.filter_filter]
            apply List.filter_congr
            intro p _
            show (decide (productScore (queryWords q) p = s) &&
              decide (0 < productScore (queryWords q) p)) =
              decide (productScore (queryWords q) p = s)
            by_cases hps : productScore (queryWords q) p = s
            · simp [hps, hs]
            · simp [hps]
          rw [hfil]
          have hid : ∀ p ∈ ps.filter
              (fun p => decide (productScore (queryWords q) p = s)),
              (rcv ∘ (fun p => (p.id, productScore (queryWords q) p))) p = id p := by
            intro p hp
            have hf := find?_of_nodup_ids hnd (List.mem_filter.mp hp).1
            show rcv (p.id, productScore (queryWords q) p) = p
            rw [hrcv]
            simp only
            rw [hf]
            rfl
          rw [List.map_congr_left hid, List.map_id]
        refine ⟨t.map rcv, ?_⟩
        rw [houtT, hfa, ← List.map_append, ht, hback]
  · -- embedding-based cosine path
    have hspec := take3_sorted_stable (Prod.snd : Product × ℝ → ℝ)
      (ps2.zip (pes.map (cosineSimilarity qe)))
    exact ⟨hspec.1, hspec.2.1, hspec.2.2⟩

/-- Witness for C1: the hypotheses hold and the length bound follows at a
concrete catalog and query. -/
theorem c1_ranker_top3_sorted_stable_witness :
    (findRelevantProducts ("podcast mic".toList)
      [⟨"p1".toList, "Nexus Pro Mic-Set".toList, "audio".toList,
        "A cardioid microphone kit for podcasting.".toList, 129, [], [], []⟩]).length ≤ 3 :=
  (c1_ranker_top3_sorted_stable ("podcast mic".toList)
    [⟨"p1".toList, "Nexus Pro Mic-Set".toList, "audio".toList,
      "A cardioid microphone kit for podcasting.".toList, 129, [], [], []⟩]
    (by decide) [] [] [] rfl).1.1

/-! ### Cosine similarity -/

theorem sum_sq_nonneg (v : List ℝ) : 0 ≤ (v.map (fun x => x * x)).sum := by
  induction v with
  | nil => simp
  | cons a t ih =>
    rw [List.map_cons, List.sum_cons]
    exact add_nonneg (mul_self_nonneg a) ih

theorem sum_sq_eq_zero_iff (v : List ℝ) :
    (v.map (fun x => x * x)).sum = 0 ↔ ∀ x ∈ v, x = 0 := by
  induction v with
  | nil => simp
  | cons a t ih =>
    rw [List.map_cons, List.sum_cons]
    constructor
    · intro h
      have h1 : a * a = 0 ∧ (t.map (fun x => x * x)).sum = 0 :=
        (add_eq_zero_iff_of_nonneg (mul_self_nonneg a) (sum_sq_nonneg t)).mp h
      have ha : a = 0 := mul_self_eq_zero.mp h1.1
      intro x hx
      rcases List.mem_cons.mp hx with rfl | hx'
      · exact ha
      · exact (ih.mp h1.2) x hx'
    · intro h
      have ha : a = 0 := h a (List.mem_cons_self a t)
      have ht : (t.map (fun x => x * x)).sum = 0 :=
        ih.mpr (fun x hx => h x (List.mem_cons_of_mem a hx))
      rw [ha, ht, mul_zero, add_zero]

theorem magnitude_eq_zero_iff (v : List ℝ) :
    magnitude v = 0 ↔ ∀ x ∈ v, x = 0 := by
  unfold magnitude
  rw [Real.sqrt_eq_zero (sum_sq_nonneg v)]
  exact sum_sq_eq_zero_iff v

/-- Claim C3: for every pair of vectors `a` and `b` (of the fixed embedding
dimension, hence equal length), `cosineSimilarity a b` equals the dot
product of `a` and `b` divided by the product of their magnitudes when both
magnitudes are non-zero, and equals 0 when either vector has zero magnitude
(equivalently, when either vector is all zeros); the function is total, so
it never raises. -/
theorem c3_cosineSimilarity_spec (a b : List ℝ) (hab : a.length = b.length) :
    (magnitude a ≠ 0 → magnitude b ≠ 0 →
      cosineSimilarity a b = dotProd a b / (magnitude a * magnitude b)) ∧
    (magnitude a = 0 ∨ magnitude b = 0 → cosineSimilarity a b = 0) ∧
    (magnitude a = 0 ↔ ∀ x ∈ a, x = 0) := by
  refine ⟨?_, ?_, magnitude_eq_zero_iff a⟩
  · intro ha hb
    unfold cosineSimilarity
    rw [if_neg]
    push_neg
    exact ⟨ha, hb⟩
  · intro h
    unfold cosineSimilarity
    rw [if_pos h]

/-- Witness for C3 at the concrete vectors `[1]` and `[1]`. -/
theorem c3_cosineSimilarity_spec_witness :
    cosineSimilarity [(1 : ℝ)] [(1 : ℝ)] =
      dotProd [(1 : ℝ)] [(1 : ℝ)] / (magnitude [(1 : ℝ)] * magnitude [(1 : ℝ)]) := by
  have hm : magnitude [(1 : ℝ)] ≠ 0 := by
    unfold magnitude
    simp
  exact (c3_cosineSimilarity_spec [(1 : ℝ)] [(1 : ℝ)] rfl).1 hm hm

/-! ### Text-turn helpers -/

theorem submitBegin_accepts {st : ChatState} (hin : trimStr st.inputText ≠ [])
    (hbusy : st.isTyping = false) :
    submitBegin st = some ({ st with
        inputText := [],
        messages := st.messages ++ [mkUserMessage (trimStr st.inputText)],
        isTyping := true }, trimStr st.inputText) := by
  unfold submitBegin
  rw [if_neg]
  rw [hbusy]
  simp [hin]

theorem submitBegin_rejects_busy {st : ChatState} (h : st.isTyping = true) :
    submitBegin st = none := by
  unfold submitBegin
  rw [if_pos (Or.inr h)]

theorem serverTurn_fallback {st : ChatState} {out : Except Unit FetchResp}
    (hin : trimStr st.inputText ≠ []) (hbusy : st.isTyping = false)
    (hfail : out = .error () ∨ ∃ r, out = .ok r ∧ r.ok = false) :
    (handleTextSubmitServer st out).messages =
      st.messages ++ [mkUserMessage (trimStr st.inputText), fallbackMessage] ∧
    (handleTextSubmitServer st out).isTyping = false := by
  have hbeg := submitBegin_accepts hin hbusy
  have hser : handleTextSubmitServer st out =
      finishServerTurn { st with
          inputText := [],
          messages := st.messages ++ [mkUserMessage (trimStr st.inputText)],
          isTyping := true } out := by
    unfold handleTextSubmitServer
    rw [hbeg]
  rcases hfail with rfl | ⟨r, rfl, hr⟩
  · rw [hser]
    unfold finishServerTurn
    simp
  · rw [hser]
    unfold finishServerTurn
    dsimp only
    rw [hr]
    simp

/-- Counterexample to claim C2 as stated: with the embedding call failing
(and every other collaborator healthy), the handler returns a 500 error
response and never invokes the chat model — the turn does not proceed
without augmentation to a chat response. -/
theorem c2_embed_failure_counterexample :
    handlerGemini postMethod (some ("k".toList)) (some ("podcast mic".toList))
      (.ok []) (.error ()) (fun _ => .ok ("a chat reply".toList)) =
      (⟨500, .errorBody⟩, false) := rfl

/-- Claim C2 (amended): when the embedding call fails, the handler aborts
the turn with a 500 error response without invoking the chat model (so no
unaugmented chat response is produced); the client-side catch then converts
the failed request into the fixed fallback assistant message and clears the
busy flag, so the user still receives exactly one (fallback) response for
the turn. -/
theorem c2_embed_failure_amended (key p : Str) (products : List Product)
    (chatOracle : List (Product × ℝ) → Except Unit Str) (st : ChatState)
    (r : FetchResp) (hp : p ≠ []) (hin : trimStr st.inputText ≠ [])
    (hbusy : st.isTyping = false) (hr : r.ok = false) :
    handlerGemini postMethod (some key) (some p) (.ok products) (.error ()) chatOracle =
      (⟨500, .errorBody⟩, false) ∧
    (handleTextSubmitServer st (.ok r)).messages =
      st.messages ++ [mkUserMessage (trimStr st.inputText), fallbackMessage] ∧
    (handleTextSubmitServer st (.ok r)).isTyping = false := by
  refine ⟨?_, serverTurn_fallback hin hbusy (Or.inr ⟨r, rfl, hr⟩)⟩
  unfold handlerGemini
  rw [if_pos rfl]
  dsimp only
  rw [if_neg hp]

/-- Witness for the amended C2 at a concrete prompt and session. -/
theorem c2_embed_failure_amended_witness :
    handlerGemini postMethod (some ("k".toList)) (some ("hi".toList)) (.ok [])
      (.error ()) (fun _ => .ok []) = (⟨500, .errorBody⟩, false) :=
  (c2_embed_failure_amended ("k".toList) ("hi".toList) [] (fun _ => .ok [])
    ⟨[], "hi".toList, false⟩ ⟨false, []⟩ (by decide) (by decide) rfl rfl).1

/-- Claim C4: for every text-mode turn in which the model call fails,
exactly one assistant message — the fixed fallback with no recommendation —
is appended after the user message, the busy flag is false afterwards, the
prior message ordering is preserved, and the session accepts the next
submission.  Both the client-model variant (`types.ts`) and the
server-function variant (`components/ChatInterface.tsx`) are covered. -/
theorem c4_model_failure_fallback (products : List Product) (st : ChatState)
    (model : Str → Except Unit AiResponse) (out : Except Unit FetchResp)
    (hin : trimStr st.inputText ≠ []) (hbusy : st.isTyping = false)
    (hfail : model (augmentedUserMessage products (trimStr st.inputText)) = .error ())
    (hfail2 : out = .error () ∨ ∃ r, out = .ok r ∧ r.ok = false) :
    (handleTextSubmit products st model).messages =
      st.messages ++ [mkUserMessage (trimStr st.inputText), fallbackMessage] ∧
    (handleTextSubmit products st model).isTyping = false ∧
    fallbackMessage.role = .assistant ∧ fallbackMessage.content = fallbackText ∧
    fallbackMessage.recommendation = none ∧
    (∀ next : Str, trimStr next ≠ [] →
      (submitBegin { handleTextSubmit products st model with inputText := next }).isSome) ∧
    (handleTextSubmitServer st out).messages =
      st.messages ++ [mkUserMessage (trimStr st.inputText), fallbackMessage] ∧
    (handleTextSubmitServer st out).isTyping = false := by
  have hbeg := submitBegin_accepts hin hbusy
  have h1 : handleTextSubmit products st model =
      { st with
          inputText := [],
          messages := st.messages ++ [mkUserMessage (trimStr st.inputText), fallbackMessage],
          isTyping := false } := by
    unfold handleTextSubmit
    rw [hbeg]
    dsimp only
    unfold finishTypesTurn
    rw [hfail]
    simp
  have hsrv := serverTurn_fallback hin hbusy hfail2
  refine ⟨by rw [h1], by rw [h1], rfl, rfl, rfl, ?_, hsrv.1, hsrv.2⟩
  intro next hnext
  rw [h1]
  unfold submitBegin
  rw [if_neg]
  · simp
  · simp [hnext]

/-- Witness for C4 at a concrete session and failing model call. -/
theorem c4_model_failure_fallback_witness :
    (handleTextSubmit [] ⟨[], "hi".toList, false⟩ (fun _ => .error ())).messages =
      ([] : List ChatMessage) ++ [mkUserMessage (trimStr ("hi".toList)), fallbackMessage] :=
  (c4_model_failure_fallback [] ⟨[], "hi".toList, false⟩ (fun _ => .error ())
    (.error ()) (by decide) rfl rfl (Or.inl rfl)).1

/-- Claim C5: for every model response whose `recommend_product` call
carries a `productId` that does not resolve to any product in the current
catalog, no recommendation is attached: in text mode the processed message
keeps the response text (and is dropped altogether when there is no text),
and in voice mode no message is appended while the tool call is still
acknowledged; no error message reaches the user on either path. -/
theorem c5_unresolved_product_dropped (products : List Product) (resp : AiResponse)
    (call : FunctionCall) (rest : List FunctionCall) (msgs : List ChatMessage)
    (hcalls : resp.functionCalls = call :: rest)
    (hname : call.name = recommendProductName)
    (hmiss : ∀ p ∈ products, p.id ≠ call.productId) :
    (resp.text ≠ [] →
      processAiResponse products resp =
        some ⟨.assistant, resp.text, none, some call.reasoning⟩) ∧
    (resp.text = [] → processAiResponse products resp = none) ∧
    handleVoiceToolCall products msgs call = (msgs, true) := by
  have hfind : products.find? (fun p => p.id == call.productId) = none :=
    List.find?_eq_none.mpr (fun p hp => by simp [hmiss p hp])
  refine ⟨?_, ?_, ?_⟩
  · intro ht
    unfold processAiResponse
    rw [hcalls]
    dsimp only
    rw [if_pos hname, hfind]
    rw [if_pos (Or.inl ht)]
  · intro ht
    unfold processAiResponse
    rw [hcalls]
    dsimp only
    rw [if_pos hname, hfind]
    rw [if_neg]
    simp [ht]
  · unfold handleVoiceToolCall
    rw [if_pos hname, hfind]

/-- Witness for C5 at a concrete catalog and a tool call referencing the
missing id `"missing"`. -/
theorem c5_unresolved_product_dropped_witness :
    processAiResponse
      [⟨"p1".toList, "Nexus Pro Mic-Set".toList, "audio".toList, [], 129, [], [], []⟩]
      ⟨"take a look".toList,
        [⟨recommendProductName, "missing".toList, "fits you".toList⟩]⟩ =
      some ⟨.assistant, "take a look".toList, none, some ("fits you".toList)⟩ :=
  (c5_unresolved_product_dropped
    [⟨"p1".toList, "Nexus Pro Mic-Set".toList, "audio".toList, [], 129, [], [], []⟩]
    ⟨"take a look".toList, [⟨recommendProductName, "missing".toList, "fits you".toList⟩]⟩
    ⟨recommendProductName, "missing".toList, "fits you".toList⟩ [] []
    rfl rfl (by decide)).1 (by decide)

/-- Counterexample to claim C6 as stated: the server-function variant
(`components/ChatInterface.tsx`) appends the extracted assistant text
unconditionally, so a server response with no candidate text appends an
assistant message with empty content and no recommendation. -/
theorem c6_empty_message_counterexample :
    (⟨.assistant, [], none, none⟩ : ChatMessage) ∈
      (handleTextSubmitServer ⟨[], "hi".toList, false⟩ (.ok ⟨true, []⟩)).messages := by
  decide

theorem processAiResponse_guard (products : List Product) (resp : AiResponse) :
    ∀ m ∈ (processAiResponse products resp).toList,
      m.role = Role.assistant → (m.content ≠ [] ∨ m.recommendation.isSome) := by
  intro m hm _
  unfold processAiResponse at hm
  dsimp only at hm
  split at hm
  · rename_i hguard
    rw [Option.toList_some, List.mem_singleton] at hm
    subst hm
    exact hguard
  · simp at hm

/-- Claim C6 (amended): on the `processAiResponse` paths of the client
variant embedded in `src/types.ts` — the text turn and the greeting turn —
an assistant message with empty text and no valid recommendation is never
appended to the session; the server-function variant
(`components/ChatInterface.tsx`) lacks the guard and can append an empty
assistant message. -/
theorem c6_empty_message_amended (products : List Product) (st : ChatState)
    (model : Str → Except Unit AiResponse) (initModel : Except Unit AiResponse) :
    (∃ new, (handleTextSubmit products st model).messages = st.messages ++ new ∧
      ∀ m ∈ new, m.role = Role.assistant → (m.content ≠ [] ∨ m.recommendation.isSome)) ∧
    (∃ new, (initChatTypes products st initModel).messages = st.messages ++ new ∧
      ∀ m ∈ new, m.role = Role.assistant → (m.content ≠ [] ∨ m.recommendation.isSome)) := by
  constructor
  · by_cases hbeg : trimStr st.inputText = [] ∨ st.isTyping = true
    · refine ⟨[], ?_, by simp⟩
      unfold handleTextSubmit submitBegin
      rw [if_pos hbeg]
      simp
    · push_neg at hbeg
      have hacc := submitBegin_accepts hbeg.1 (by
        cases h : st.isTyping
        · rfl
        · exact absurd h hbeg.2)
      unfold handleTextSubmit
      rw [hacc]
      dsimp only
      unfold finishTypesTurn
      cases hmo : model (augmentedUserMessage products (trimStr st.inputText)) with
      | ok resp =>
        refine ⟨[mkUserMessage (trimStr st.inputText)] ++
          (processAiResponse products resp).toList, by simp, ?_⟩
        intro m hm hrole
        rcases List.mem_append.mp hm with hm' | hm'
        · have : m = mkUserMessage (trimStr st.inputText) := by simpa using hm'
          subst this
          cases hrole
        · exact processAiResponse_guard products resp m hm' hrole
      | error e =>
        refine ⟨[mkUserMessage (trimStr st.inputText), fallbackMessage], by simp, ?_⟩
        intro m hm hrole
        rcases List.mem_cons.mp hm with rfl | hm'
        · exact Role.noConfusion hrole
        · have hmf : m = fallbackMessage := by simpa using hm'
          subst hmf
          left
          decide
  · unfold initChatTypes
    by_cases hg : st.messages = [] ∧ products ≠ []
    · rw [if_pos hg]
      cases initModel with
      | ok resp =>
        refine ⟨(processAiResponse products resp).toList, by simp, ?_⟩
        exact fun m hm hrole => processAiResponse_guard products resp m hm hrole
      | error e =>
        refine ⟨[⟨.assistant, greetingFallbackText, none, none⟩], by simp, ?_⟩
        intro m hm _
        have : m = ⟨.assistant, greetingFallbackText, none, none⟩ := by simpa using hm
        subst this
        left
        decide
    · rw [if_neg hg]
      exact ⟨[], by simp, by simp⟩

/-- Claim C7: in voice mode, every downlink segment is scheduled to start
no earlier than the maximum of the current output clock and the cursor, and
the cursor advances by the segment duration after scheduling; hence for two
segments arriving back-to-back with durations `d1` and `d2`, the second
starts no earlier than the first start plus `d1` — gapless, non-overlapping,
in-order playback. -/
theorem c7_playback_cursor (st : VoiceStreamState) (c1 d1 c2 d2 : ℚ) :
    (scheduleSegment st c1 d1).2 = max st.nextStartTime c1 ∧
    st.nextStartTime ≤ (scheduleSegment st c1 d1).2 ∧
    c1 ≤ (scheduleSegment st c1 d1).2 ∧
    ((scheduleSegment st c1 d1).1).nextStartTime = (scheduleSegment st c1 d1).2 + d1 ∧
    ((scheduleSegment st c1 d1).1).sources = st.sources ++ [(scheduleSegment st c1 d1).2] ∧
    (scheduleSegment st c1 d1).2 + d1 ≤
      (scheduleSegment (scheduleSegment st c1 d1).1 c2 d2).2 :=
  ⟨rfl, le_max_left _ _, le_max_right _ _, rfl, rfl, le_max_left _ _⟩

/-- Claim C8: while a prior text turn is in flight (busy flag true) every
new submission is rejected — the session state does not change, so no
second turn begins before the prior turn completes — and the typing
indicator is exactly the in-flight flag: it is raised by an accepted
submission and cleared by the turn completion (fallback or success) on both
variants. -/
theorem c8_busy_flag_serializes (products : List Product) (st : ChatState)
    (model : Str → Except Unit AiResponse) (out : Except Unit FetchResp)
    (st1 : ChatState) (m : Str) :
    (st.isTyping = true → submitBegin st = none ∧
      handleTextSubmit products st model = st ∧
      handleTextSubmitServer st out = st) ∧
    (submitBegin st = some (st1, m) → st1.isTyping = true ∧
      (finishTypesTurn products st1 m model).isTyping = false ∧
      (finishServerTurn st1 out).isTyping = false) := by
  constructor
  · intro h
    have hb : submitBegin st = none := submitBegin_rejects_busy h
    refine ⟨hb, ?_, ?_⟩
    · unfold handleTextSubmit
      rw [hb]
    · unfold handleTextSubmitServer
      rw [hb]
  · intro h
    unfold submitBegin at h
    split at h
    · exact absurd h (by simp)
    · have hp := Option.some.inj h
      have h1 : st1 = { st with
          inputText := [],
          messages := st.messages ++ [mkUserMessage (trimStr st.inputText)],
          isTyping := true } := (congrArg Prod.fst hp).symm
      refine ⟨by rw [h1], ?_, ?_⟩
      · unfold finishTypesTurn
        cases model (augmentedUserMessage products m) <;> rfl
      · unfold finishServerTurn
        cases out with
        | error e => rfl
        | ok r =>
          dsimp only
          by_cases hr : r.ok = false
          · rw [if_pos hr]
          · rw [if_neg hr]

/-- Witness for C8: a busy session rejects a concrete second submission
unchanged, and a completed turn clears the flag. -/
theorem c8_busy_flag_serializes_witness :
    handleTextSubmit [] ⟨[], "hi again".toList, true⟩ (fun _ => .error ()) =
      ⟨[], "hi again".toList, true⟩ :=
  ((c8_busy_flag_serializes [] ⟨[], "hi again".toList, true⟩ (fun _ => .error ())
    (.error ()) ⟨[], [], false⟩ []).1 rfl).2.1

/-- Counterexample to claim C9 as stated: in the `ChatInterface` embedded in
`src/types.ts`, toggling to voice with the microphone granted but the
channel open failing reverts the mode to text, yet leaves the microphone
stream and both audio contexts open (half-initialized state) and shows no
user-visible notice (only a console log). -/
theorem c9_voice_failure_counterexample :
    (toggleToVoiceTypes ⟨.text, false, false, false, false, false, []⟩
      (.ok ()) (.error ())).mode = .text ∧
    (toggleToVoiceTypes ⟨.text, false, false, false, false, false, []⟩
      (.ok ()) (.error ())).micOpen = true ∧
    (toggleToVoiceTypes ⟨.text, false, false, false, false, false, []⟩
      (.ok ()) (.error ())).inputCtxOpen = true ∧
    (toggleToVoiceTypes ⟨.text, false, false, false, false, false, []⟩
      (.ok ()) (.error ())).outputCtxOpen = true ∧
    (toggleToVoiceTypes ⟨.text, false, false, false, false, false, []⟩
      (.ok ()) (.error ())).alerts = [] :=
  ⟨rfl, rfl, rfl, rfl, rfl⟩

/-- Claim C9 (amended): whenever starting the voice session fails, the mode
reverts to text on every failure path, but in the `types.ts` variant the
notice is only a console log (no user-visible alert) and a channel-open
failure after microphone acquisition leaves the microphone stream and both
audio contexts open; only a microphone denial leaves no resources behind.
The server-function variant never starts voice: it shows a user-visible
alert and stays in text mode with no resources. -/
theorem c9_voice_failure_amended (st : VoiceAppState) (conn : Except Unit Unit) :
    (startVoiceSessionTypes st (.error ()) conn = { st with mode := .text }) ∧
    ((startVoiceSessionTypes st (.ok ()) (.error ())).mode = .text ∧
      (startVoiceSessionTypes st (.ok ()) (.error ())).micOpen = true ∧
      (startVoiceSessionTypes st (.ok ()) (.error ())).inputCtxOpen = true ∧
      (startVoiceSessionTypes st (.ok ()) (.error ())).outputCtxOpen = true ∧
      (startVoiceSessionTypes st (.ok ()) (.error ())).sessionOpen = st.sessionOpen ∧
      (startVoiceSessionTypes st (.ok ()) (.error ())).alerts = st.alerts) ∧
    ((startVoiceSessionServer st).mode = .text ∧
      (startVoiceSessionServer st).alerts = st.alerts ++ [voiceNoticeText] ∧
      (startVoiceSessionServer st).micOpen = st.micOpen ∧
      (startVoiceSessionServer st).inputCtxOpen = st.inputCtxOpen ∧
      (startVoiceSessionServer st).outputCtxOpen = st.outputCtxOpen) :=
  ⟨rfl, ⟨rfl, rfl, rfl, rfl, rfl, rfl⟩, rfl, rfl, rfl, rfl, rfl⟩
